import Mathlib

/-!
Verification development for the vram encoder core of the hwcodec repository
(`src/vram/encode.rs`). The backend capability tables, the static capability
queries and the FFI layer are external collaborators; they are modelled as
oracle parameters. Machine integers (`i32`, `i64`) are modelled as `Int`,
with Rust's truncated remainder `%` rendered as `Int.tmod` and the
`as usize` cast rendered explicitly where the code relies on it.
-/

/-- The four encoder backends (`common::Driver` is not under `src/`; the
variants are exactly the ones matched in `encode.rs`). -/
inductive Driver where
  | NV
  | AMF
  | MFX
  | FFMPEG
deriving DecidableEq

/-- Modelled from the spec: `common::DataFormat` is not under `src/`; the
spec describes a closed enumeration of encodable bitstream formats with two
values, and `encode.rs` uses exactly `H264` and `H265`. -/
inductive DataFormat where
  | H264
  | H265
deriving DecidableEq

/-- Modelled from the spec: `DynamicContext` is declared in `vram/mod.rs`,
which is not under `src/`. Fields are the ones `encode.rs` reads: optional
device handle (a raw pointer, modelled as `Int`, `0` = null), width, height,
bitrate in kbps, framerate and GOP length. -/
structure DynamicContext where
  device : Option Int
  width : Int
  height : Int
  kbitrate : Int
  framerate : Int
  gop : Int
deriving DecidableEq

/-- Modelled from the spec: `FeatureContext` is declared in `vram/mod.rs`,
which is not under `src/`. Fields are the ones `encode.rs` reads: backend
driver, api-variant integer tag, codec format and 64-bit adapter luid. -/
structure FeatureContext where
  driver : Driver
  api : Int
  data_format : DataFormat
  luid : Int
deriving DecidableEq

/-- `EncodeContext`: pairing of one feature context and one dynamic context
(declared in `vram/mod.rs`, shape fixed by its uses in `encode.rs`). -/
structure EncodeContext where
  f : FeatureContext
  d : DynamicContext
deriving DecidableEq

/-- Modelled from the spec: `InnerEncodeContext` is declared in
`vram/inner.rs`, which is not under `src/`; `do_test` reads fields `api`
and `format` from it. -/
structure InnerEncodeContext where
  api : Int
  format : DataFormat
deriving DecidableEq

/-- One encoded output frame (`EncodeFrame` in `encode.rs`): payload bytes,
presentation timestamp and keyframe flag. -/
structure EncodeFrame where
  data : List Nat
  pts : Int
  key : Int
deriving DecidableEq

/-- One invocation of the encode callback by a backend: the payload the
backend hands over (`data` pointer plus `size`, modelled as the byte list),
the keyframe flag and the timestamp. -/
structure CbInv where
  data : List Nat
  key : Int
  pts : Int
deriving DecidableEq

/-- Result of one native `test` call: the returned status code, the adapter
count written through the out-parameter, and the adapter-descriptor buffer
contents after the call (`descs i` is the luid stored at slot `i`; the
buffer is zero-initialized before the call, so slots the backend did not
write hold luid `0`). -/
structure TestResult where
  status : Int
  desc_count : Int
  descs : Nat → Int

/-- A backend's five-function capability table plus `test`
(`inner::EncodeCalls`, not under `src/`; the signatures are fixed by the
calls in `encode.rs` and spec section 6). Each native function is modelled
as a pure oracle: `new` returns the opaque handle or `none` for null;
`encode` returns the list of callback invocations the backend performs
during the call together with the final status code. -/
structure EncodeCalls where
  new : Int → Int → Int → DataFormat → Int → Int → Int → Int → Int → Option Int
  encode : Int → Int → Int → List CbInv × Int
  destroy : Int → Unit
  test : List Int → Int → DataFormat → DynamicContext → TestResult
  set_bitrate : Int → Int → Int
  set_framerate : Int → Int → Int

/-- The `Encoder` state: the selected capability table, the opaque backend
handle, the frame-accumulation buffer and the stored construction context. -/
structure Encoder where
  calls : EncodeCalls
  codec : Int
  frames : List EncodeFrame
  ctx : EncodeContext

/-- `Encoder::new`. `B` is the static driver dispatch (the `match` on
`ctx.f.driver` selecting one backend's table). Rust's `%` on `i32` is
truncated remainder, so `width % 2 == 1` is `Int.tmod width 2 = 1`.
The source's error type is `()`, so both failure paths return
`Except.error ()`. -/
def Encoder.new (B : Driver → EncodeCalls) (ctx : EncodeContext) : Except Unit Encoder :=
  if ctx.d.width.tmod 2 = 1 ∨ ctx.d.height.tmod 2 = 1 then
    Except.error ()
  else
    let calls := B ctx.f.driver
    match calls.new (ctx.d.device.getD 0) ctx.f.luid ctx.f.api ctx.f.data_format
        ctx.d.width ctx.d.height ctx.d.kbitrate ctx.d.framerate ctx.d.gop with
    | none => Except.error ()
    | some codec => Except.ok { calls := calls, codec := codec, frames := [], ctx := ctx }

/-- `Encoder::callback`: appends one frame to the accumulation buffer,
copying the payload (`from_raw_parts(data, size).to_vec()`). -/
def Encoder.callback (frames : List EncodeFrame) (data : List Nat) (key : Int)
    (pts : Int) : List EncodeFrame :=
  frames ++ [{ data := data, pts := pts, key := key }]

/-- `Encoder::encode`: clears the accumulation buffer, runs the backend's
encode function (which fires the callback once per delivered frame, in
order), then returns the buffer on status `0` and the status code verbatim
otherwise. The returned pair is (call result, encoder state after the
call). -/
def Encoder.encode (e : Encoder) (tex : Int) (ms : Int) :
    Except Int (List EncodeFrame) × Encoder :=
  let cleared : List EncodeFrame := []
  let r := e.calls.encode e.codec tex ms
  let frames := r.1.foldl (fun fs i => Encoder.callback fs i.data i.key i.pts) cleared
  let e2 := { e with frames := frames }
  if r.2 ≠ 0 then (Except.error r.2, e2) else (Except.ok frames, e2)

/-- `Encoder::set_bitrate`: forwards to the backend; status `0` is success,
anything else is returned verbatim as the error. -/
def Encoder.set_bitrate (e : Encoder) (kbs : Int) : Except Int Unit × Encoder :=
  let r := e.calls.set_bitrate e.codec kbs
  if r = 0 then (Except.ok (), e) else (Except.error r, e)

/-- `Encoder::set_framerate`: forwards to the backend; status `0` is
success, anything else is returned verbatim as the error. -/
def Encoder.set_framerate (e : Encoder) (framerate : Int) : Except Int Unit × Encoder :=
  let r := e.calls.set_framerate e.codec framerate
  if r = 0 then (Except.ok (), e) else (Except.error r, e)

/-- The frame the callback stores for one invocation: the payload copied
out of the backend's buffer, with timestamp and keyframe flag. -/
def frame_of_inv (i : CbInv) : EncodeFrame :=
  { data := i.data, pts := i.pts, key := i.key }

/-- Modelled from the spec: `vram::MAX_ADATERS`, the fixed maximum number
of adapter descriptors per probe, is declared in `vram/mod.rs`, which is
not under `src/`; the spec only fixes that it is a positive constant, and
the claims do not depend on its numeric value. -/
def MAX_ADATERS : Nat := 16

/-- Rust's `as usize` cast applied to an `i32` value: sign-extension to 64
bits reinterpreted as unsigned, so a negative count becomes a huge `usize`.
`do_test` compares `desc_count as usize` against the buffer length. -/
def usize_of_i32 (c : Int) : Nat := (c % (2 ^ 64)).toNat

/-- The probe input `do_test` builds for one (driver, inner-context)
pair: the feature context with unresolved luid `0` paired with the
baseline dynamic context. -/
def input_of (d : DynamicContext) (p : Driver × InnerEncodeContext) : EncodeContext :=
  { f := { driver := p.1, api := p.2.api, data_format := p.2.format, luid := 0 }, d := d }

/-- The arguments of one native `test` invocation, recorded for the
instrumented probe trace: which backend was called, with which api tag,
codec format, luid filter and dynamic context. -/
structure TestCall where
  driver : Driver
  api : Int
  data_format : DataFormat
  luid_range : List Int
  d : DynamicContext
deriving DecidableEq

/-- The trace record of the single native `test` call a probe task makes
for its input. -/
def call_of (luid_range : List Int) (input : EncodeContext) : TestCall :=
  { driver := input.f.driver, api := input.f.api, data_format := input.f.data_format,
    luid_range := luid_range, d := input.d }

/-- The contribution of one probe task in `do_test`: the spawned thread
calls the backend's `test` function once; on status `0` and a reported
count within the buffer bound it pushes one clone of the input per
reported descriptor, with the luid taken from the descriptor slot;
otherwise it pushes nothing. -/
def probe_one (B : Driver → EncodeCalls) (luid_range : List Int)
    (input : EncodeContext) : List EncodeContext :=
  let r := (B input.f.driver).test luid_range input.f.api input.f.data_format input.d
  if r.status = 0 then
    if usize_of_i32 r.desc_count ≤ MAX_ADATERS then
      (List.range (usize_of_i32 r.desc_count)).map
        (fun i => { input with f := { input.f with luid := r.descs i } })
    else []
  else []

/-- `do_test`: builds one `EncodeContext` per (driver, inner-context) pair
with luid `0`, spawns one probe task per input, joins them all, and maps
the collected outputs to their feature contexts. The thread interleaving
only permutes how the per-probe outputs are merged in the shared results
vector; this embedding fixes the canonical spawn-order merge, and all
claims proved about it are insensitive to that order. The second component
is the instrumented trace: one `test` invocation per input, in spawn
order. -/
def do_test (B : Driver → EncodeCalls) (inners : List (Driver × InnerEncodeContext))
    (d : DynamicContext) (luid_range : List Int) :
    List FeatureContext × List TestCall :=
  let inputs := inners.map (input_of d)
  (((inputs.map (probe_one B luid_range)).flatten).map (·.f),
   inputs.map (call_of luid_range))

/-- Modelled from the spec: the four backends' static capability queries
(`possible_support_encoders` of `nv`, `amf`, `mfx` and `ffmpeg`; only the
`nv` one is under `src/`, and it consults an FFI driver-support call).
Each reports the list of inner encode contexts the backend is plausibly
built to support, with no hardware probe. -/
structure StaticEncoders where
  nv : List InnerEncodeContext
  amf : List InnerEncodeContext
  mfx : List InnerEncodeContext
  ffmpeg : List InnerEncodeContext

/-- The hardware-vendor probe inputs of `available`: the nv, amf and mfx
static capability entries tagged with their drivers, in that order. -/
def hw_inners (s : StaticEncoders) : List (Driver × InnerEncodeContext) :=
  s.nv.map (fun n => (Driver.NV, n))
    ++ s.amf.map (fun n => (Driver.AMF, n))
    ++ s.mfx.map (fun n => (Driver.MFX, n))

/-- The software-fallback probe inputs of `available` for one codec
format: the ffmpeg static capability entries of that format. -/
def ff_inners (s : StaticEncoders) (format : DataFormat) :
    List (Driver × InnerEncodeContext) :=
  (s.ffmpeg.filter (fun e => e.format == format)).map (fun n => (Driver.FFMPEG, n))

/-- `available`: probes all hardware-vendor (nv, amf, mfx) pairs with an
empty luid filter, then for each codec format probes the ffmpeg fallback
entries of that format with the luid filter taken from the results
collected so far for that format, appending each round's outputs to the
result. The second component accumulates the instrumented probe trace. -/
def available (B : Driver → EncodeCalls) (s : StaticEncoders) (d : DynamicContext) :
    List FeatureContext × List TestCall :=
  let first := do_test B (hw_inners s) d []
  [DataFormat.H264, DataFormat.H265].foldl
    (fun acc format =>
      let luids := (acc.1.filter (fun e => e.data_format == format)).map (·.luid)
      let r := do_test B (ff_inners s format) d luids
      (acc.1 ++ r.1, acc.2 ++ r.2))
    first

/-- The adapter luids the hardware-vendor probes returned for one codec
format: the luid filter `available` hands to the fallback probes of that
format. -/
def hw_luids (B : Driver → EncodeCalls) (s : StaticEncoders) (d : DynamicContext)
    (format : DataFormat) : List Int :=
  ((do_test B (hw_inners s) d []).1.filter (fun e => e.data_format == format)).map (·.luid)

/-! ### Concrete fixtures (used by witnesses and counterexamples) -/

/-- A backend table that accepts construction (handle `1`), encodes
nothing, and succeeds on every call. -/
def acceptCalls : EncodeCalls :=
  { new := fun _ _ _ _ _ _ _ _ _ => some 1
    encode := fun _ _ _ => ([], 0)
    destroy := fun _ => ()
    test := fun _ _ _ _ => { status := 0, desc_count := 0, descs := fun _ => 0 }
    set_bitrate := fun _ _ => 0
    set_framerate := fun _ _ => 0 }

/-- A backend table whose construct function returns null. -/
def rejectCalls : EncodeCalls :=
  { acceptCalls with new := fun _ _ _ _ _ _ _ _ _ => none }

/-- Dispatch giving every driver the accepting table. -/
def Bacc : Driver → EncodeCalls := fun _ => acceptCalls

/-- Dispatch giving every driver the rejecting table. -/
def Brej : Driver → EncodeCalls := fun _ => rejectCalls

/-- Baseline dynamic context (the spec's standard 640x480 probe config). -/
def d0 : DynamicContext :=
  { device := none, width := 640, height := 480, kbitrate := 2000, framerate := 30, gop := 30 }

/-- Concrete construction context with even dimensions. -/
def ctxEven : EncodeContext :=
  { f := { driver := Driver.FFMPEG, api := 0, data_format := DataFormat.H264, luid := 1 }
    d := d0 }

/-- Concrete construction context with positive odd width `3`. -/
def ctxOdd3 : EncodeContext :=
  { ctxEven with d := { d0 with width := 3 } }

/-- Concrete construction context with negative odd width `-3`. -/
def ctxNegOdd : EncodeContext :=
  { ctxEven with d := { d0 with width := -3 } }

/-- A backend table whose encode call delivers two frames and succeeds. -/
def twoFrameCalls : EncodeCalls :=
  { acceptCalls with
    encode := fun _ _ _ =>
      ([{ data := [1], key := 1, pts := 10 }, { data := [2], key := 0, pts := 20 }], 0) }

/-- A backend table whose encode call delivers nothing and fails with
status `5`. -/
def failCalls : EncodeCalls :=
  { acceptCalls with encode := fun _ _ _ => ([], 5) }

/-- A concrete encoder over `twoFrameCalls` whose buffer still holds a
stale frame from an earlier call. -/
def eTwo : Encoder :=
  { calls := twoFrameCalls, codec := 1,
    frames := [{ data := [9], pts := 5, key := 1 }], ctx := ctxEven }

/-- A concrete encoder over `failCalls`. -/
def eFail : Encoder :=
  { calls := failCalls, codec := 1, frames := [], ctx := ctxEven }

/-- A backend table whose test call reports one adapter but leaves the
zero-initialized descriptor buffer untouched, so slot 0 holds luid `0`. -/
def zeroLuidCalls : EncodeCalls :=
  { acceptCalls with
    test := fun _ _ _ _ => { status := 0, desc_count := 1, descs := fun _ => 0 } }

/-- Dispatch giving every driver the zero-luid-reporting table. -/
def Bzero : Driver → EncodeCalls := fun _ => zeroLuidCalls

/-- A backend table whose test call reports more adapters (`17`) than the
buffer bound `MAX_ADATERS = 16` admits. -/
def overCalls : EncodeCalls :=
  { acceptCalls with
    test := fun _ _ _ _ => { status := 0, desc_count := 17, descs := fun _ => 5 } }

/-- Dispatch giving every driver the over-reporting table. -/
def Bover : Driver → EncodeCalls := fun _ => overCalls

/-- A backend table whose test call always fails with status `-1`. -/
def failTestCalls : EncodeCalls :=
  { acceptCalls with
    test := fun _ _ _ _ => { status := -1, desc_count := 0, descs := fun _ => 0 } }

/-- Dispatch giving every driver the failing-test table. -/
def Bfail : Driver → EncodeCalls := fun _ => failTestCalls

/-- A concrete inner context: api tag `0`, format H264. -/
def n0 : InnerEncodeContext := { api := 0, format := DataFormat.H264 }

/-- Static capability lists with a single nv H264 entry. -/
def sNvOnly : StaticEncoders :=
  { nv := [n0], amf := [], mfx := [], ffmpeg := [] }

/-! ### Helper lemmas -/

/-- Rust's `w % 2 == 1` on `i32` (truncated remainder) holds exactly for
the nonnegative odd integers: a negative odd `w` has `w % 2 == -1`. -/
lemma tmod_two_eq_one_iff (w : Int) : w.tmod 2 = 1 ↔ 0 ≤ w ∧ Odd w := by
  rw [Int.odd_iff]
  cases w with
  | ofNat m =>
    rw [show ((Int.ofNat m).tmod 2 : Int) = Int.ofNat (m % 2) from rfl]
    rw [Int.ofNat_eq_natCast, Int.ofNat_eq_natCast]
    omega
  | negSucc m =>
    rw [show ((Int.negSucc m).tmod 2 : Int) = -Int.ofNat ((m + 1) % 2) from rfl]
    rw [Int.ofNat_eq_natCast, Int.negSucc_eq]
    omega

/-- Folding the encode callback over a list of invocations appends exactly
the corresponding frames, in invocation order. -/
lemma foldl_callback (invs : List CbInv) (init : List EncodeFrame) :
    invs.foldl (fun fs i => Encoder.callback fs i.data i.key i.pts) init
      = init ++ invs.map frame_of_inv := by
  induction invs generalizing init with
  | nil => simp
  | cons a l ih =>
    rw [List.foldl_cons, ih]
    simp [Encoder.callback, frame_of_inv]

/-- Closed form of `Encoder.encode`: the call result and the post-call
state, in terms of the backend's delivered invocations and status. -/
lemma encode_eq (e : Encoder) (tex ms : Int) :
    e.encode tex ms =
      (if (e.calls.encode e.codec tex ms).2 ≠ 0
          then Except.error (e.calls.encode e.codec tex ms).2
          else Except.ok ((e.calls.encode e.codec tex ms).1.map frame_of_inv),
       { e with frames := (e.calls.encode e.codec tex ms).1.map frame_of_inv }) := by
  unfold Encoder.encode
  simp only [foldl_callback, List.nil_append]
  split <;> rfl

lemma do_test_nil (B : Driver → EncodeCalls) (d : DynamicContext) (lr : List Int) :
    do_test B [] d lr = ([], []) := rfl

/-- `do_test` decomposes probe by probe: each spawned task contributes its
own output segment and exactly one trace entry. -/
lemma do_test_cons (B : Driver → EncodeCalls) (p : Driver × InnerEncodeContext)
    (l : List (Driver × InnerEncodeContext)) (d : DynamicContext) (lr : List Int) :
    do_test B (p :: l) d lr
      = ((probe_one B lr (input_of d p)).map (·.f) ++ (do_test B l d lr).1,
         call_of lr (input_of d p) :: (do_test B l d lr).2) := by
  simp [do_test]

/-- `do_test` distributes over concatenation of probe lists. -/
lemma do_test_append (B : Driver → EncodeCalls)
    (l1 l2 : List (Driver × InnerEncodeContext)) (d : DynamicContext) (lr : List Int) :
    do_test B (l1 ++ l2) d lr
      = ((do_test B l1 d lr).1 ++ (do_test B l2 d lr).1,
         (do_test B l1 d lr).2 ++ (do_test B l2 d lr).2) := by
  simp [do_test]

/-- Every trace entry of a `do_test` round carries the luid filter that
round was invoked with. -/
lemma do_test_trace_luid_range (B : Driver → EncodeCalls)
    (inners : List (Driver × InnerEncodeContext)) (d : DynamicContext) (lr : List Int) :
    ∀ c ∈ (do_test B inners d lr).2, c.luid_range = lr := by
  intro c hc
  simp only [do_test, List.mem_map] at hc
  obtain ⟨input, _, hcall⟩ := hc
  rw [← hcall]
  rfl

/-- One trace entry per probe input. -/
lemma do_test_trace_length (B : Driver → EncodeCalls)
    (inners : List (Driver × InnerEncodeContext)) (d : DynamicContext) (lr : List Int) :
    (do_test B inners d lr).2.length = inners.length := by
  simp [do_test]

/-- Anatomy of a discovered feature context: every element of a `do_test`
result comes from some probe input whose `test` call returned status `0`
with an in-bound count, and its luid is read off one of the reported
descriptor slots while driver, api and format are copied from the input. -/
lemma mem_do_test (B : Driver → EncodeCalls) (inners : List (Driver × InnerEncodeContext))
    (d : DynamicContext) (lr : List Int) (fc : FeatureContext)
    (hfc : fc ∈ (do_test B inners d lr).1) :
    ∃ p ∈ inners,
      ((B p.1).test lr p.2.api p.2.format d).status = 0 ∧
      usize_of_i32 ((B p.1).test lr p.2.api p.2.format d).desc_count ≤ MAX_ADATERS ∧
      ∃ i < usize_of_i32 ((B p.1).test lr p.2.api p.2.format d).desc_count,
        fc = { driver := p.1, api := p.2.api, data_format := p.2.format,
               luid := ((B p.1).test lr p.2.api p.2.format d).descs i } := by
  simp only [do_test, List.map_map, List.mem_map, List.mem_flatten] at hfc
  obtain ⟨ec, ⟨lst, hlst, hec⟩, hf⟩ := hfc
  obtain ⟨p, hp, hrun⟩ := hlst
  refine ⟨p, hp, ?_⟩
  rw [← hrun] at hec
  simp only [Function.comp] at hec
  unfold probe_one at hec
  by_cases hst : ((B (input_of d p).f.driver).test lr (input_of d p).f.api
      (input_of d p).f.data_format (input_of d p).d).status = 0
  · rw [if_pos hst] at hec
    by_cases hcnt : usize_of_i32 ((B (input_of d p).f.driver).test lr (input_of d p).f.api
        (input_of d p).f.data_format (input_of d p).d).desc_count ≤ MAX_ADATERS
    · rw [if_pos hcnt] at hec
      obtain ⟨i, hi, hecdef⟩ := List.mem_map.mp hec
      rw [List.mem_range] at hi
      refine ⟨hst, hcnt, i, hi, ?_⟩
      rw [← hf, ← hecdef]
      rfl
    · rw [if_neg hcnt] at hec
      exact absurd hec (List.not_mem_nil ec)
  · rw [if_neg hst] at hec
    exact absurd hec (List.not_mem_nil ec)

/-- A probe whose test call fails contributes nothing. -/
lemma probe_one_fail (B : Driver → EncodeCalls) (lr : List Int) (input : EncodeContext)
    (h : ((B input.f.driver).test lr input.f.api input.f.data_format input.d).status ≠ 0) :
    probe_one B lr input = [] := by
  unfold probe_one
  rw [if_neg h]

/-- A probe whose reported count exceeds the buffer bound contributes
nothing, whatever its status. -/
lemma probe_one_overcount (B : Driver → EncodeCalls) (lr : List Int) (input : EncodeContext)
    (h : ¬ usize_of_i32 ((B input.f.driver).test lr input.f.api input.f.data_format
        input.d).desc_count ≤ MAX_ADATERS) :
    probe_one B lr input = [] := by
  unfold probe_one
  simp only []
  by_cases hst : ((B input.f.driver).test lr input.f.api input.f.data_format input.d).status = 0
  · rw [if_pos hst, if_neg h]
  · rw [if_neg hst]

/-- Every feature context a fallback round for format `format` returns
carries that format. -/
lemma ffmpeg_round_format (B : Driver → EncodeCalls) (s : StaticEncoders)
    (d : DynamicContext) (lr : List Int) (format : DataFormat) :
    ∀ fc ∈ (do_test B (ff_inners s format) d lr).1, fc.data_format = format := by
  intro fc hfc
  obtain ⟨p, hp, _, _, i, _, hdef⟩ := mem_do_test B _ d lr fc hfc
  unfold ff_inners at hp
  obtain ⟨n, hn, hpn⟩ := List.mem_map.mp hp
  have hfmt : n.format = format := by
    have := (List.mem_filter.mp hn).2
    simpa using this
  rw [hdef, ← hpn]
  simpa using hfmt

/-- The H265 luid filter computed after the H264 fallback round equals the
one computed from the hardware results alone: every context the H264
round appended has format H264 and is removed by the H265 filter. -/
lemma acc_filter_h265 (B : Driver → EncodeCalls) (s : StaticEncoders) (d : DynamicContext) :
    (((do_test B (hw_inners s) d []).1
        ++ (do_test B (ff_inners s DataFormat.H264) d
              (hw_luids B s d DataFormat.H264)).1).filter
       (fun e => e.data_format == DataFormat.H265))
      = (do_test B (hw_inners s) d []).1.filter (fun e => e.data_format == DataFormat.H265) := by
  rw [List.filter_append]
  have h : (do_test B (ff_inners s DataFormat.H264) d
      (hw_luids B s d DataFormat.H264)).1.filter
        (fun e => e.data_format == DataFormat.H265) = [] := by
    rw [List.filter_eq_nil_iff]
    intro a ha
    have := ffmpeg_round_format B s d _ DataFormat.H264 a ha
    simp [this]
  rw [h, List.append_nil]

/-- `available` unfolded into its three probe rounds. -/
lemma available_eq_parts (B : Driver → EncodeCalls) (s : StaticEncoders) (d : DynamicContext) :
    available B s d
      = (let first := do_test B (hw_inners s) d []
         let r1 := do_test B (ff_inners s DataFormat.H264) d
           ((first.1.filter (fun e => e.data_format == DataFormat.H264)).map (·.luid))
         let r2 := do_test B (ff_inners s DataFormat.H265) d
           (((first.1 ++ r1.1).filter (fun e => e.data_format == DataFormat.H265)).map (·.luid))
         ((first.1 ++ r1.1) ++ r2.1, (first.2 ++ r1.2) ++ r2.2)) := rfl


/-! ### C1: even-geometry guard at construction -/

/-- C1 counterexample: the claim "construction fails for every odd width
or height, without reaching the backend" is false at a concrete input.
`ctxNegOdd` has odd width `-3`, yet `Encoder::new` succeeds with an
accepting backend (the Rust check `width % 2 == 1` misses negative odd
values, since `-3 % 2 == -1`), and the result depends on the backend's
construct function, so the backend is reached. -/
theorem C1_counterexample :
    Odd ctxNegOdd.d.width ∧
    Encoder.new Bacc ctxNegOdd
      = Except.ok { calls := acceptCalls, codec := 1, frames := [], ctx := ctxNegOdd } ∧
    Encoder.new Brej ctxNegOdd = Except.error () := by
  refine ⟨⟨-2, by norm_num [ctxNegOdd, ctxEven, d0]⟩, rfl, rfl⟩

/-- C1 (amended): for every `EncodeContext` whose width or height is odd
and nonnegative (the values Rust's `% 2 == 1` detects), construction fails
with the geometry error and never reaches the backend (the result is the
same for every backend dispatch); consequently no successfully constructed
`Encoder` has a nonnegative odd width or height, and the stored context is
the construction input. -/
theorem C1_even_geometry_guard (B : Driver → EncodeCalls) (ctx : EncodeContext) :
    ((0 ≤ ctx.d.width ∧ Odd ctx.d.width) ∨ (0 ≤ ctx.d.height ∧ Odd ctx.d.height) →
      Encoder.new B ctx = Except.error () ∧
      ∀ B2, Encoder.new B2 ctx = Encoder.new B ctx) ∧
    (∀ e, Encoder.new B ctx = Except.ok e →
      ¬(0 ≤ e.ctx.d.width ∧ Odd e.ctx.d.width) ∧
      ¬(0 ≤ e.ctx.d.height ∧ Odd e.ctx.d.height) ∧ e.ctx = ctx) := by
  constructor
  · intro h
    have hcond : ctx.d.width.tmod 2 = 1 ∨ ctx.d.height.tmod 2 = 1 := by
      rcases h with h | h
      · exact Or.inl ((tmod_two_eq_one_iff _).mpr h)
      · exact Or.inr ((tmod_two_eq_one_iff _).mpr h)
    constructor
    · simp [Encoder.new, if_pos hcond]
    · intro B2
      simp [Encoder.new, if_pos hcond]
  · intro e he
    by_cases hcond : ctx.d.width.tmod 2 = 1 ∨ ctx.d.height.tmod 2 = 1
    · simp [Encoder.new, if_pos hcond] at he
    · have hctx : e.ctx = ctx := by
        unfold Encoder.new at he
        rw [if_neg hcond] at he
        simp only at he
        split at he
        · simp at he
        · rw [Except.ok.injEq] at he
          rw [← he]
      push_neg at hcond
      refine ⟨?_, ?_, hctx⟩
      · rw [hctx]
        exact fun hw => hcond.1 ((tmod_two_eq_one_iff _).mpr hw)
      · rw [hctx]
        exact fun hh => hcond.2 ((tmod_two_eq_one_iff _).mpr hh)

/-- C1 witness: the amended theorem applied at the concrete context with
odd width `3` and the accepting backend. -/
theorem C1_witness :
    (0 ≤ ctxOdd3.d.width ∧ Odd ctxOdd3.d.width) ∧
    Encoder.new Bacc ctxOdd3 = Except.error () := by
  have hodd : 0 ≤ ctxOdd3.d.width ∧ Odd ctxOdd3.d.width :=
    ⟨by norm_num [ctxOdd3, ctxEven, d0], ⟨1, by norm_num [ctxOdd3, ctxEven, d0]⟩⟩
  exact ⟨hodd, ((C1_even_geometry_guard Bacc ctxOdd3).1 (Or.inl hodd)).1⟩

/-! ### C7: construction error taxonomy -/

/-- C7 counterexample: the claim that construction failure carries a
two-variant error taxonomy is false. The source's error type is `()`: an
odd-geometry failure (`ctxOdd3`, accepting backend) and a backend-null
failure (`ctxEven`, rejecting backend) return the very same error value,
so the caller cannot tell the two failures apart. -/
theorem C7_counterexample :
    Int.tmod ctxEven.d.width 2 ≠ 1 ∧ Int.tmod ctxEven.d.height 2 ≠ 1 ∧
    Int.tmod ctxOdd3.d.width 2 = 1 ∧
    Encoder.new Brej ctxEven = Except.error () ∧
    Encoder.new Bacc ctxOdd3 = Except.error () ∧
    Encoder.new Brej ctxEven = Encoder.new Bacc ctxOdd3 := by
  refine ⟨by decide, by decide, by decide, rfl, rfl, rfl⟩

/-- C7 (amended): construction failure is reported with the single unit
error value `Err(())` for both causes — odd geometry and backend-null —
so the two causes are not distinguishable from the returned error. -/
theorem C7_unit_error (B : Driver → EncodeCalls) (ctx : EncodeContext) :
    (Int.tmod ctx.d.width 2 = 1 ∨ Int.tmod ctx.d.height 2 = 1 ∨
        (B ctx.f.driver).new (ctx.d.device.getD 0) ctx.f.luid ctx.f.api ctx.f.data_format
          ctx.d.width ctx.d.height ctx.d.kbitrate ctx.d.framerate ctx.d.gop = none) →
    Encoder.new B ctx = Except.error () := by
  intro h
  by_cases hcond : ctx.d.width.tmod 2 = 1 ∨ ctx.d.height.tmod 2 = 1
  · simp [Encoder.new, if_pos hcond]
  · have hnone : (B ctx.f.driver).new (ctx.d.device.getD 0) ctx.f.luid ctx.f.api
        ctx.f.data_format ctx.d.width ctx.d.height ctx.d.kbitrate ctx.d.framerate
        ctx.d.gop = none := by
      rcases h with h | h | h
      · exact absurd (Or.inl h) hcond
      · exact absurd (Or.inr h) hcond
      · exact h
    unfold Encoder.new
    rw [if_neg hcond]
    simp only
    rw [hnone]

/-- C7 witness: the amended theorem applied at the even-geometry context
with the rejecting backend. -/
theorem C7_witness :
    rejectCalls.new (ctxEven.d.device.getD 0) ctxEven.f.luid ctxEven.f.api
        ctxEven.f.data_format ctxEven.d.width ctxEven.d.height ctxEven.d.kbitrate
        ctxEven.d.framerate ctxEven.d.gop = none ∧
    Encoder.new Brej ctxEven = Except.error () :=
  ⟨rfl, C7_unit_error Brej ctxEven (Or.inr (Or.inr rfl))⟩

/-! ### C10: reconfiguration leaves the encoder state unchanged -/

/-- C10: `set_bitrate` and `set_framerate` forward to the backend but leave
the whole `Encoder` state — in particular the stored context (with its
`kbitrate` and `framerate` fields) and the accumulation buffer — exactly
as it was. -/
theorem C10_reconfigure_preserves_state (e : Encoder) (kbs framerate : Int) :
    (e.set_bitrate kbs).2 = e ∧
    (e.set_framerate framerate).2 = e ∧
    (e.set_bitrate kbs).2.ctx = e.ctx ∧
    (e.set_bitrate kbs).2.ctx.d.kbitrate = e.ctx.d.kbitrate ∧
    (e.set_framerate framerate).2.ctx.d.framerate = e.ctx.d.framerate ∧
    (e.set_bitrate kbs).2.frames = e.frames ∧
    (e.set_framerate framerate).2.frames = e.frames := by
  have hb : (e.set_bitrate kbs).2 = e := by
    by_cases h : e.calls.set_bitrate e.codec kbs = 0 <;>
      simp [Encoder.set_bitrate, h]
  have hf : (e.set_framerate framerate).2 = e := by
    by_cases h : e.calls.set_framerate e.codec framerate = 0 <;>
      simp [Encoder.set_framerate, h]
  exact ⟨hb, hf, by rw [hb], by rw [hb], by rw [hf], by rw [hb], by rw [hf]⟩

/-! ### C2: buffer cleared on entry; result is exactly this call's frames -/

/-- C2: on every encode call the accumulation buffer is cleared first, so
the post-call buffer — and, on success, the returned value — holds exactly
the frames delivered by the callback during this call, in invocation
order; the result is independent of whatever the buffer held before the
call, and a second call on the post-call state behaves as on a fresh one,
so it never contains frames from a previous call. -/
theorem C2_encode_fresh_buffer (e : Encoder) (tex ms : Int) :
    ((e.encode tex ms).2.frames = (e.calls.encode e.codec tex ms).1.map frame_of_inv) ∧
    ((e.calls.encode e.codec tex ms).2 = 0 →
      (e.encode tex ms).1 = Except.ok ((e.calls.encode e.codec tex ms).1.map frame_of_inv)) ∧
    (∀ junk, (Encoder.encode { e with frames := junk } tex ms).1 = (e.encode tex ms).1) ∧
    (∀ tex2 ms2, ((e.encode tex ms).2.encode tex2 ms2).1 = (e.encode tex2 ms2).1) := by
  refine ⟨?_, ?_, ?_, ?_⟩
  · rw [encode_eq]
  · intro h0
    rw [encode_eq]
    simp [h0]
  · intro junk
    rw [encode_eq, encode_eq]
  · intro tex2 ms2
    rw [encode_eq, encode_eq, encode_eq]

/-- C2 witness: the theorem applied to the concrete encoder `eTwo`, whose
buffer holds a stale frame; the successful call returns exactly the two
frames delivered this call. -/
theorem C2_witness :
    (eTwo.calls.encode eTwo.codec 0 0).2 = 0 ∧
    (eTwo.encode 0 0).1
      = Except.ok [{ data := [1], pts := 10, key := 1 }, { data := [2], pts := 20, key := 0 }] :=
  ⟨rfl, (C2_encode_fresh_buffer eTwo 0 0).2.1 rfl⟩

/-! ### C6: encode status propagated verbatim -/

/-- C6: an encode call errors exactly when the backend status is nonzero,
the error value is the backend status unmodified, and status zero always
yields a successful result. -/
theorem C6_encode_status_verbatim (e : Encoder) (tex ms : Int) :
    (∀ c, (e.encode tex ms).1 = Except.error c ↔
      ((e.calls.encode e.codec tex ms).2 = c ∧ c ≠ 0)) ∧
    ((e.calls.encode e.codec tex ms).2 ≠ 0 →
      (e.encode tex ms).1 = Except.error (e.calls.encode e.codec tex ms).2) ∧
    ((e.calls.encode e.codec tex ms).2 = 0 →
      (e.encode tex ms).1 = Except.ok ((e.calls.encode e.codec tex ms).1.map frame_of_inv)) := by
  refine ⟨?_, ?_, ?_⟩
  · intro c
    rw [encode_eq]
    show (if (e.calls.encode e.codec tex ms).2 ≠ 0
        then Except.error (e.calls.encode e.codec tex ms).2
        else Except.ok ((e.calls.encode e.codec tex ms).1.map frame_of_inv))
        = Except.error c ↔ _
    by_cases h : (e.calls.encode e.codec tex ms).2 = 0
    · rw [if_neg (fun hh => hh h)]
      constructor
      · intro he
        exact Except.noConfusion he
      · intro hc
        obtain ⟨h1, h2⟩ := hc
        exact absurd (show c = 0 by omega) h2
    · rw [if_pos h]
      constructor
      · intro he
        injection he with h1
        exact ⟨h1, fun hc => h (h1.trans hc)⟩
      · intro hc
        rw [hc.1]
  · intro h
    rw [encode_eq]
    simp [h]
  · intro h
    rw [encode_eq]
    simp [h]

/-- C6 witness: the theorem's iff applied to the concrete failing encoder
`eFail`, whose backend reports status `5`. -/
theorem C6_witness :
    ((eFail.calls.encode eFail.codec 0 0).2 = 5 ∧ (5 : Int) ≠ 0) ∧
    (eFail.encode 0 0).1 = Except.error 5 :=
  ⟨⟨rfl, by decide⟩, ((C6_encode_status_verbatim eFail 0 0).1 5).mpr ⟨rfl, by decide⟩⟩

/-! ### C3: provenance of returned adapter luids -/

/-- C3 counterexample: the claim that discovery never returns a luid of
`0` is false for a backend behavior that reports one adapter but stores
luid `0` in the descriptor slot (e.g. by leaving the zero-initialized
buffer untouched): the returned list then contains a feature context with
luid `0`. -/
theorem C3_counterexample :
    ({ driver := Driver.NV, api := 0, data_format := DataFormat.H264,
       luid := 0 } : FeatureContext) ∈ (available Bzero sNvOnly d0).1 ∧
    ({ driver := Driver.NV, api := 0, data_format := DataFormat.H264,
       luid := 0 } : FeatureContext).luid = 0 := by
  exact ⟨by decide, rfl⟩

/-- C3 (amended): every feature context discovery returns is built from a
probe whose test call reported status `0` with an in-bound count, and its
luid is read off one of the reported descriptor slots (so a luid of `0`
can leak out exactly when a backend reports a descriptor holding `0`). -/
theorem C3_luid_from_reported_descriptor (B : Driver → EncodeCalls) (s : StaticEncoders)
    (d : DynamicContext) :
    ∀ fc ∈ (available B s d).1,
      ∃ (dr : Driver) (n : InnerEncodeContext) (lr : List Int),
        ((B dr).test lr n.api n.format d).status = 0 ∧
        usize_of_i32 ((B dr).test lr n.api n.format d).desc_count ≤ MAX_ADATERS ∧
        ∃ i < usize_of_i32 ((B dr).test lr n.api n.format d).desc_count,
          fc = { driver := dr, api := n.api, data_format := n.format,
                 luid := ((B dr).test lr n.api n.format d).descs i } := by
  intro fc hfc
  rw [available_eq_parts] at hfc
  simp only [] at hfc
  rcases List.mem_append.mp hfc with hfc2 | hfc2
  · rcases List.mem_append.mp hfc2 with hfc3 | hfc3
    · obtain ⟨p, _, hst, hcnt, i, hi, hdef⟩ := mem_do_test B _ d _ fc hfc3
      exact ⟨p.1, p.2, _, hst, hcnt, i, hi, hdef⟩
    · obtain ⟨p, _, hst, hcnt, i, hi, hdef⟩ := mem_do_test B _ d _ fc hfc3
      exact ⟨p.1, p.2, _, hst, hcnt, i, hi, hdef⟩
  · obtain ⟨p, _, hst, hcnt, i, hi, hdef⟩ := mem_do_test B _ d _ fc hfc2
    exact ⟨p.1, p.2, _, hst, hcnt, i, hi, hdef⟩

/-- C3 witness: the amended theorem applied to the concrete zero-luid
backend and the nv-only static lists. -/
theorem C3_witness :
    ({ driver := Driver.NV, api := 0, data_format := DataFormat.H264,
       luid := 0 } : FeatureContext) ∈ (available Bzero sNvOnly d0).1 ∧
    ∃ (dr : Driver) (n : InnerEncodeContext) (lr : List Int),
      ((Bzero dr).test lr n.api n.format d0).status = 0 ∧
      usize_of_i32 ((Bzero dr).test lr n.api n.format d0).desc_count ≤ MAX_ADATERS ∧
      ∃ i < usize_of_i32 ((Bzero dr).test lr n.api n.format d0).desc_count,
        ({ driver := Driver.NV, api := 0, data_format := DataFormat.H264,
           luid := 0 } : FeatureContext)
          = { driver := dr, api := n.api, data_format := n.format,
              luid := ((Bzero dr).test lr n.api n.format d0).descs i } :=
  ⟨by decide, C3_luid_from_reported_descriptor Bzero sNvOnly d0 _ (by decide)⟩

/-! ### C4: fallback probes are luid-narrowed per format -/

/-- C4: the probe trace of one discovery run is the hardware round
followed by one fallback round per codec format; every hardware probe is
invoked with the empty luid filter, every fallback probe for format `f`
is invoked with exactly the adapter luids the hardware round returned for
`f` (the H264 fallback results do not bleed into the H265 filter, since
they all carry format H264), and the fallback rounds hold one probe per
ffmpeg capability entry of the format. -/
theorem C4_fallback_luid_filter (B : Driver → EncodeCalls) (s : StaticEncoders)
    (d : DynamicContext) :
    ((available B s d).2
      = ((do_test B (hw_inners s) d []).2
          ++ (do_test B (ff_inners s DataFormat.H264) d
                (hw_luids B s d DataFormat.H264)).2)
        ++ (do_test B (ff_inners s DataFormat.H265) d
              (hw_luids B s d DataFormat.H265)).2) ∧
    (∀ c ∈ (do_test B (hw_inners s) d []).2, c.luid_range = []) ∧
    (∀ format c, c ∈ (do_test B (ff_inners s format) d (hw_luids B s d format)).2 →
      c.luid_range = hw_luids B s d format) ∧
    (∀ format, (do_test B (ff_inners s format) d (hw_luids B s d format)).2.length
      = (s.ffmpeg.filter (fun e => e.format == format)).length) := by
  refine ⟨?_, ?_, ?_, ?_⟩
  · have h1 : (available B s d).2
        = ((do_test B (hw_inners s) d []).2
            ++ (do_test B (ff_inners s DataFormat.H264) d
                  (hw_luids B s d DataFormat.H264)).2)
          ++ (do_test B (ff_inners s DataFormat.H265) d
                ((((do_test B (hw_inners s) d []).1
                    ++ (do_test B (ff_inners s DataFormat.H264) d
                          (hw_luids B s d DataFormat.H264)).1).filter
                   (fun e => e.data_format == DataFormat.H265)).map (·.luid))).2 := rfl
    rw [acc_filter_h265 B s d] at h1
    exact h1
  · exact do_test_trace_luid_range B (hw_inners s) d []
  · intro format c hc
    exact do_test_trace_luid_range B (ff_inners s format) d (hw_luids B s d format) c hc
  · intro format
    rw [do_test_trace_length]
    simp [ff_inners]

/-- C4 witness: the concrete zero-luid run has its single hardware probe
recorded with the empty luid filter. -/
theorem C4_witness :
    call_of [] (input_of d0 (Driver.NV, n0)) ∈ (do_test Bzero (hw_inners sNvOnly) d0 []).2 ∧
    (call_of [] (input_of d0 (Driver.NV, n0))).luid_range = [] :=
  ⟨by decide, (C4_fallback_luid_filter Bzero sNvOnly d0).2.1 _ (by decide)⟩

/-! ### C5: over-reporting probes are discarded entirely -/

/-- C5: a probe whose test call reports an adapter count exceeding the
buffer bound `MAX_ADATERS` contributes zero feature contexts — removing
it from the probe list leaves the discovery result unchanged, never a
partial accept of the first `MAX_ADATERS` entries. (The count is an `i32`
out-parameter, hence the `2^31` bound.) -/
theorem C5_overcount_discarded (B : Driver → EncodeCalls) (d : DynamicContext)
    (lr : List Int) (l1 l2 : List (Driver × InnerEncodeContext))
    (dr : Driver) (n : InnerEncodeContext)
    (hbig : (MAX_ADATERS : Int) < ((B dr).test lr n.api n.format d).desc_count)
    (hi32 : ((B dr).test lr n.api n.format d).desc_count < 2 ^ 31) :
    (do_test B (l1 ++ (dr, n) :: l2) d lr).1 = (do_test B (l1 ++ l2) d lr).1 := by
  have h16 : ((MAX_ADATERS : Nat) : Int) = 16 := by norm_num [MAX_ADATERS]
  have hcnt : ¬ usize_of_i32 ((B dr).test lr n.api n.format d).desc_count ≤ MAX_ADATERS := by
    unfold usize_of_i32
    have h31 : ((B dr).test lr n.api n.format d).desc_count < 2147483648 := by
      have : ((2 : Int) ^ 31) = 2147483648 := by norm_num
      omega
    have h1 : ((B dr).test lr n.api n.format d).desc_count % ((2 : Int) ^ 64)
        = ((B dr).test lr n.api n.format d).desc_count := by
      have h64 : ((2 : Int) ^ 64) = 18446744073709551616 := by norm_num
      rw [h64]
      apply Int.emod_eq_of_lt <;> omega
    rw [h1]
    have hM : MAX_ADATERS = 16 := rfl
    omega
  have hzero : probe_one B lr (input_of d (dr, n)) = [] :=
    probe_one_overcount B lr (input_of d (dr, n)) hcnt
  rw [do_test_append, do_test_append, do_test_cons]
  simp only []
  rw [hzero]
  simp

/-- C5 witness: the theorem applied to the concrete over-reporting backend
(count `17` against bound `16`). -/
theorem C5_witness :
    (MAX_ADATERS : Int) < ((Bover Driver.NV).test [] n0.api n0.format d0).desc_count ∧
    ((Bover Driver.NV).test [] n0.api n0.format d0).desc_count < 2 ^ 31 ∧
    (do_test Bover ([] ++ (Driver.NV, n0) :: []) d0 []).1
      = (do_test Bover ([] ++ []) d0 []).1 :=
  ⟨by norm_num [MAX_ADATERS, Bover, overCalls, n0, acceptCalls],
   by norm_num [Bover, overCalls, n0, acceptCalls],
   C5_overcount_discarded Bover d0 [] [] [] Driver.NV n0
     (by norm_num [MAX_ADATERS, Bover, overCalls, n0, acceptCalls])
     (by norm_num [Bover, overCalls, n0, acceptCalls])⟩

/-! ### C9: discovery is total and probe-local -/

/-- C9: discovery cannot fail: with empty static capability lists it
returns the empty list; if every test call fails it returns the empty
list for every static configuration; the result decomposes probe by
probe, so one probe's outcome never removes a sibling probe's
contribution; and a probe whose test call fails contributes the empty
list. -/
theorem C9_discovery_never_fails (B : Driver → EncodeCalls) (d : DynamicContext) :
    ((available B { nv := [], amf := [], mfx := [], ffmpeg := [] } d).1 = []) ∧
    (∀ s : StaticEncoders,
      (∀ (dr : Driver) (lr : List Int) (api : Int) (format : DataFormat),
          ((B dr).test lr api format d).status ≠ 0) →
      (available B s d).1 = []) ∧
    (∀ inners lr p, (do_test B (p :: inners) d lr).1
        = (probe_one B lr (input_of d p)).map (·.f) ++ (do_test B inners d lr).1) ∧
    (∀ (lr : List Int) (dr : Driver) (n : InnerEncodeContext),
      ((B dr).test lr n.api n.format d).status ≠ 0 →
      (do_test B [(dr, n)] d lr).1 = []) := by
  refine ⟨rfl, ?_, ?_, ?_⟩
  · intro s hfail
    have hdt : ∀ (inners : List (Driver × InnerEncodeContext)) (lr : List Int),
        (do_test B inners d lr).1 = [] := by
      intro inners lr
      induction inners with
      | nil => rfl
      | cons p l ih =>
        rw [do_test_cons]
        simp only []
        rw [probe_one_fail B lr (input_of d p) (hfail p.1 lr p.2.api p.2.format), ih]
        rfl
    rw [available_eq_parts]
    simp only [hdt]
    rfl
  · intro inners lr p
    rw [do_test_cons]
  · intro lr dr n h
    rw [do_test_cons]
    simp only []
    rw [probe_one_fail B lr (input_of d (dr, n)) h]
    rfl

/-- C9 witness: the last conjunct applied to the concrete failing-test
backend. -/
theorem C9_witness :
    ((Bfail Driver.NV).test [] n0.api n0.format d0).status ≠ 0 ∧
    (do_test Bfail [(Driver.NV, n0)] d0 []).1 = [] :=
  ⟨by decide, (C9_discovery_never_fails Bfail d0).2.2.2 [] Driver.NV n0 (by decide)⟩
